import Mathlib

/-!
Shallow embedding of the hqtt core (typed MQTT value cells and the Home
Assistant discovery document builder) together with proofs about it.

Strings from the Go source are modelled as Lean `String` values; the
topic-manipulation functions work on the underlying character lists so that
the list lemmas of Mathlib apply. Go byte slices are modelled as `List Nat`,
Go callbacks as opaque tokens of an abstract type, and fallible Go functions
as `Except`/`Option` results. A Go run-time panic is modelled as `none` of an
`Option`-valued result.
-/

/-- Payload models a Go byte slice carried in an MQTT message. -/
abbrev Payload := List Nat

/-! ## Topic path utilities (mqtt topic file)

The source declares `TopicSeparator = "/"`, `TrimTopic` which trims the
separator from both ends via `strings.Trim`, and the variadic `JoinTopic`.
-/

/-- TopicSeparator is the single separator character of the one-character Go
string constant `TopicSeparator = "/"`. -/
def TopicSeparator : Char := '/'

/-- isSep tests a character against the topic separator. -/
def isSep (c : Char) : Bool := c == TopicSeparator

/-- TrimTopicL models Go `strings.Trim(topic, TopicSeparator)` on the
character list of the topic: all leading and all trailing separator
characters are removed. -/
def TrimTopicL (l : List Char) : List Char :=
  (l.dropWhile isSep).rdropWhile isSep

/-- TrimTopic trims TopicSeparator from the start and end of the specified
topic (source function `TrimTopic`). -/
def TrimTopic (s : String) : String := String.mk (TrimTopicL s.data)

/-- skipPart holds for the loop continue condition of `JoinTopic`: the part
is the empty string or exactly the bare separator. -/
def skipPart (p : List Char) : Bool := p.isEmpty || p == [TopicSeparator]

/-- JoinTopicL models the loop of the source `JoinTopic` on character lists.
Each part that is empty or a bare separator is skipped. A kept part is
appended trimmed; the separator is appended after it whenever the part is not
in the last position of the argument list. -/
def JoinTopicL : List (List Char) → List Char
  | [] => []
  | [p] => if skipPart p then [] else TrimTopicL p
  | p :: q :: rest =>
      (if skipPart p then [] else TrimTopicL p ++ [TopicSeparator]) ++
        JoinTopicL (q :: rest)

/-- JoinTopic joins non-empty component parts with TopicSeparator, trimming
each part as it is appended (source function `JoinTopic`; the variadic
parameter list is modelled as a `List String`). -/
def JoinTopic (parts : List String) : String :=
  String.mk (JoinTopicL (parts.map String.data))

/-! ## Outbound value cells (mqtt value file)

`Value[T]` holds a topic, an optional marshaler, write options, the last
value written and the `initialized` flag. The injected transport `Writer` is
modelled as a function from topic, options and payload to an optional
transport error; the write calls a run performs are returned explicitly so
that the absence of a transport action is expressible.
-/

/-- WriteOptions models the Go `WriteOptions` struct. The quality of service
byte is modelled as a `Nat`. -/
structure WriteOptions where
  QoS : Nat
  Retain : Bool
deriving DecidableEq

/-- WriteCall records one invocation of `Writer.WriteTopic`. -/
structure WriteCall where
  topic : String
  opts : WriteOptions
  payload : Payload
deriving DecidableEq

/-- ValueWriteErr models the errors produced by `Value.Write`: the
`ErrNoMarshaler` sentinel, the wrap of a failed marshal, and a transport
error passed through from `Writer.WriteTopic`. -/
inductive ValueWriteErr where
  | noMarshaler
  | marshalFailed (msg : String)
  | transport (msg : String)
deriving DecidableEq

/-- Value models the Go `Value[T]` cell. The marshaler is optional, exactly
as the Go function field can be nil. -/
structure Value (T : Type) where
  topic : String
  marshaler : Option (T → Except String Payload)
  opts : WriteOptions
  v : T
  initialized : Bool

/-- NewValueWithOptions constructs a Value for the topic, marshaler and
options. Go leaves the stored value at the zero value of `T`; the model takes
that zero value as the explicit argument `dflt`. -/
def NewValueWithOptions {T : Type} (topic : String)
    (marshal : Option (T → Except String Payload)) (opts : WriteOptions)
    (dflt : T) : Value T :=
  ⟨topic, marshal, opts, dflt, false⟩

/-- NewValue constructs a Value with default WriteOptions (QoS 0, no
retain). -/
def NewValue {T : Type} (topic : String)
    (marshal : Option (T → Except String Payload)) (dflt : T) : Value T :=
  NewValueWithOptions topic marshal ⟨0, false⟩ dflt

/-- Get returns the most recently written value and the `initialized`
flag (source method `Value.Get`). -/
def Value.Get {T : Type} (s : Value T) : T × Bool := (s.v, s.initialized)

/-- Write models `Value.Write`: with no marshaler it fails with
`ErrNoMarshaler` and does not touch the cell; with a failing marshaler it
returns the wrapped marshal error and does not touch the cell; on a
successful marshal it stores the new value, sets `initialized`, and then
publishes, returning the transport result as the call error. The result is
the new cell state, the returned value, the returned error and the list of
transport write calls performed. -/
def Value.Write {T : Type} (wt : String → WriteOptions → Payload → Option String)
    (s : Value T) (pfx : String) (newValue : T) :
    Value T × T × Option ValueWriteErr × List WriteCall :=
  match s.marshaler with
  | none => (s, newValue, some ValueWriteErr.noMarshaler, [])
  | some m =>
    match m newValue with
    | Except.error e => (s, s.v, some (ValueWriteErr.marshalFailed e), [])
    | Except.ok data =>
        let s1 : Value T := { s with v := newValue, initialized := true }
        let t := JoinTopic [pfx, s.topic]
        (s1, newValue, (wt t s.opts data).map ValueWriteErr.transport,
          [⟨t, s.opts, data⟩])

/-! ## Inbound remote value cells (mqtt value file)

`RemoteValue[T]` holds a topic, an optional unmarshaler, the watcher list,
the last received value and the `initialized` flag. Watcher callbacks are
modelled as opaque tokens of an abstract type `W`; an invocation of a watcher
is recorded as the pair of the token and the value passed to it. -/

/-- ReadOptions models the Go `ReadOptions` struct; enumerated bytes are
modelled as `Nat`. -/
structure ReadOptions where
  QoS : Nat
  NoLocal : Bool
  RetainAsPublished : Bool
  RetainHandling : Nat
deriving DecidableEq

/-- Subscription models the Go `Subscription` struct: a topic together with
read options. -/
structure Subscription where
  Topic : String
  Options : ReadOptions
deriving DecidableEq

/-- RemoteValue models the Go `RemoteValue[T]` cell. The reachable states of
the Go watcher slice are nil or non-empty, so the nil slice and the empty
list coincide in the model. -/
structure RemoteValue (T W : Type) where
  topic : String
  unmarshaler : Option (Payload → Except String T)
  opts : ReadOptions
  watchers : List W
  v : T
  initialized : Bool

/-- JsonValueUnmarshaler models the source factory of the same name: the
behavior of `json.Unmarshal` at the cell type is external to this layer and
is supplied as the function `jsonDec`. -/
def JsonValueUnmarshaler {T : Type} (jsonDec : Payload → Except String T) :
    Payload → Except String T := jsonDec

/-- ServeMQTT models `RemoteValue.ServeMQTT`: nothing happens unless the
topic matches exactly; a nil unmarshaler is replaced by the JSON unmarshaler
before decoding; a decode error is logged and changes nothing else; a decoded
value is stored, `initialized` is set and every watcher is invoked in
registration order with the new value. The result is the new cell state and
the list of watcher invocations. -/
def RemoteValue.ServeMQTT {T W : Type} (jsonDec : Payload → Except String T)
    (s : RemoteValue T W) (topic : String) (payload : Payload) :
    RemoteValue T W × List (W × T) :=
  if s.topic ≠ topic then (s, [])
  else
    let um := s.unmarshaler.getD (JsonValueUnmarshaler jsonDec)
    let s1 : RemoteValue T W := { s with unmarshaler := some um }
    match um payload with
    | Except.error _ => (s1, [])
    | Except.ok parsed =>
        ({ s1 with v := parsed, initialized := true },
          s1.watchers.map (fun w => (w, parsed)))

/-- Get returns the most recent value received and the `initialized` flag
(source method `RemoteValue.Get`). -/
def RemoteValue.Get {T W : Type} (s : RemoteValue T W) : T × Bool :=
  (s.v, s.initialized)

/-- Watch models `RemoteValue.Watch`: the callback is appended to the
watcher list and the index of the appended element, `len(v.watchers) - 1`
after the append, is returned. Go returns an `int`, modelled as `Int`. -/
def RemoteValue.Watch {T W : Type} (s : RemoteValue T W) (callback : W) :
    RemoteValue T W × Int :=
  ({ s with watchers := s.watchers ++ [callback] },
    (s.watchers.length : Int))

/-- Unwatch models `RemoteValue.Unwatch`. The guard treats a nil watcher
list, an id below 1, or an id above `len(watchers)` as invalid: that branch
logs a warning (the Bool of the result) and leaves the list unchanged.
Otherwise Go evaluates `append(v.watchers[:id], v.watchers[id+1:]...)`; the
slice expression `v.watchers[id+1:]` panics at run time when `id+1` exceeds
`len(v.watchers)`, which the model renders as `none`. -/
def RemoteValue.Unwatch {T W : Type} (s : RemoteValue T W) (id : Int) :
    Option (RemoteValue T W × Bool) :=
  if s.watchers.length = 0 ∨ id < 1 ∨ (s.watchers.length : Int) < id then
    some (s, true)
  else if (s.watchers.length : Int) < id + 1 then
    none
  else
    some ({ s with
      watchers := s.watchers.take id.toNat ++ s.watchers.drop (id.toNat + 1) },
      false)

/-- AwaitWatcherCleanup models the effect of `RemoteValue.Await` on the
watcher list when no concurrent watcher registration occurs between the call
and the return: Await registers the transient watcher through `Watch` and the
deferred cleanup removes it through `Unwatch` with the returned id, on both
the satisfied branch and the cancellation branch of the select. The result is
the cell state after Await returns, or `none` for a panic inside Unwatch. -/
def RemoteValue.AwaitWatcherCleanup {T W : Type} (s : RemoteValue T W)
    (transient : W) : Option (RemoteValue T W) :=
  let p := s.Watch transient
  (p.1.Unwatch p.2).map (fun q => q.1)

/-! ## Discovery document builder (discovery marshal file)

The `jsontext.Encoder` of the source is append-only over an in-memory
buffer, whose token writes cannot fail; the model therefore renders every
marshal helper as the pair of the token list it appends and the list of
validation errors it contributes. Go `errors.Join` over the helper calls is
concatenation of both components, in call order, since every argument of
`errors.Join` is evaluated. -/

/-- DiscErr models the discovery validation errors. Each source error wraps
one of the sentinels `ErrValueRequired`, `ErrTopicRequired` or
`ErrMissingStateOrCommandTopic` with the field name, and `errors.Is` can test
for each sentinel inside a joined error. -/
inductive DiscErr where
  | valueRequired (name : String)
  | topicRequired (name : String)
  | missingStateOrCommandTopic (name : String)
deriving DecidableEq

/-- Tok models one token or encoded value appended to the jsontext
encoder. Standard-library encodings whose content the claims never inspect
are carried as opaque `json` tags. -/
inductive Tok where
  | beginObj
  | endObj
  | str (s : String)
  | null
  | nat (n : Nat)
  | bool (b : Bool)
  | strList (l : List String)
  | json (tag : String)
deriving DecidableEq

/-- MarshalRes is the observable result of one discovery marshal helper:
the appended tokens and the contributed validation errors. -/
abbrev MarshalRes := List Tok × List DiscErr

/-- joinRes sequences marshal helper results: tokens and errors are
concatenated in call order, the shape `errors.Join` gives them. -/
def joinRes (rs : List MarshalRes) : MarshalRes :=
  rs.foldr (fun r acc => (r.1 ++ acc.1, r.2 ++ acc.2)) ([], [])

/-- FullyQualifiedTopic models `Value.FullyQualifiedTopic` and
`RemoteValue.FullyQualifiedTopic` for the discovery builder, where a cell
pointer is observed only through its configured topic: a nil cell is `none`
and yields the empty string, a non-nil cell joins the prefix and its
topic. -/
def FullyQualifiedTopic (cell : Option String) (pfx : String) : String :=
  match cell with
  | none => ""
  | some t => JoinTopic [pfx, t]

/-- MaybeMarshalTopic encodes the key and topic when the topic string is not
empty and is silent otherwise. -/
def MaybeMarshalTopic (k topic : String) : MarshalRes :=
  if topic = "" then ([], []) else ([Tok.str k, Tok.str topic], [])

/-- MarshalRequiredTopic contributes the named `ErrTopicRequired` when the
topic is the empty string, and otherwise encodes it. -/
def MarshalRequiredTopic (name k topic : String) : MarshalRes :=
  if topic = "" then ([], [DiscErr.topicRequired name])
  else MaybeMarshalTopic k topic

/-- MarshalRequiredValueTopic encodes the fully qualified topic of a
`Value` cell, requiring it to be non-empty. -/
def MarshalRequiredValueTopic (name k : String) (v : Option String)
    (pfx : String) : MarshalRes :=
  MarshalRequiredTopic name k (FullyQualifiedTopic v pfx)

/-- MarshalRequiredRemoteValueTopic encodes the fully qualified topic of a
`RemoteValue` cell, requiring it to be non-empty. -/
def MarshalRequiredRemoteValueTopic (name k : String) (v : Option String)
    (pfx : String) : MarshalRes :=
  MarshalRequiredTopic name k (FullyQualifiedTopic v pfx)

/-- MaybeMarshalValueTopic encodes the fully qualified topic of a `Value`
cell when it is not empty. -/
def MaybeMarshalValueTopic (k : String) (v : Option String) (pfx : String) :
    MarshalRes :=
  MaybeMarshalTopic k (FullyQualifiedTopic v pfx)

/-- MaybeMarshalRemoteValueTopic encodes the fully qualified topic of a
`RemoteValue` cell when it is not empty. -/
def MaybeMarshalRemoteValueTopic (k : String) (v : Option String)
    (pfx : String) : MarshalRes :=
  MaybeMarshalTopic k (FullyQualifiedTopic v pfx)

/-- MaybeMarshalStateAndCommandTopics validates a state cell and a command
cell as a unit: both nil is silent, exactly one nil contributes the named
`ErrMissingStateOrCommandTopic`, and both present marshals both topics as
required topics under their keys. -/
def MaybeMarshalStateAndCommandTopics (name sk : String) (s : Option String)
    (ck : String) (c : Option String) (pfx : String) : MarshalRes :=
  if s = none ∧ c = none then ([], [])
  else if s = none ∨ c = none then
    ([], [DiscErr.missingStateOrCommandTopic name])
  else
    joinRes [MarshalRequiredValueTopic name sk s pfx,
      MarshalRequiredRemoteValueTopic name ck c pfx]

/-- MaybeMarshalStd encodes an optional standard value: a nil pointer is
silent, a value is encoded under the key. -/
def MaybeMarshalStd (k : String) (v : Option Tok) : MarshalRes :=
  match v with
  | none => ([], [])
  | some t => ([Tok.str k, t], [])

/-- MarshalStd requires the pointer to be non-nil, contributing the named
`ErrValueRequired` otherwise. -/
def MarshalStd (name k : String) (v : Option Tok) : MarshalRes :=
  match v with
  | none => ([], [DiscErr.valueRequired name])
  | some t => ([Tok.str k, t], [])

/-- MaybeMarshalStdComparable encodes the value under the key unless it
equals the zero value of its type; the zero value and the rendering into a
token are the explicit arguments `zero` and `enc`. -/
def MaybeMarshalStdComparable {T : Type} [DecidableEq T] (zero : T)
    (enc : T → Tok) (k : String) (v : T) : MarshalRes :=
  if v = zero then ([], []) else ([Tok.str k, enc v], [])

/-- MarshalStdComparable contributes the named `ErrValueRequired` when the
value equals the zero value of its type, and encodes it otherwise. -/
def MarshalStdComparable {T : Type} [DecidableEq T] (zero : T) (enc : T → Tok)
    (name k : String) (v : T) : MarshalRes :=
  if v = zero then ([], [DiscErr.valueRequired name])
  else ([Tok.str k, enc v], [])

/-- MaybeMarshalStdSlice encodes a slice under the key unless it is
empty. -/
def MaybeMarshalStdSlice (k : String) (v : List String) : MarshalRes :=
  if v = [] then ([], []) else ([Tok.str k, Tok.strList v], [])

/-- MarshalStdIfNot encodes the value under the key unless it equals the
excluded value or the zero value of its type. -/
def MarshalStdIfNot {T : Type} [DecidableEq T] (notv zero : T) (enc : T → Tok)
    (vk : String) (v : T) : MarshalRes :=
  if v = notv ∨ v = zero then ([], []) else ([Tok.str vk, enc v], [])

/-- MaybeInlineMarshalStd marshals a map of components inline: for each
entry the key is written as a string token and the value is encoded, and the
errors of every entry are joined. The Go map is modelled as an association
list giving one arbitrary enumeration order of the map. -/
def MaybeInlineMarshalStd (components : List (String × MarshalRes)) :
    MarshalRes :=
  joinRes (components.map (fun kv => (Tok.str kv.1 :: kv.2.1, kv.2.2)))

/-! ## Discovery field name constants (discovery constants files) -/

def FieldStateTopic : String := "stat_t"
def FieldCommandTopic : String := "cmd_t"
def FieldDevice : String := "dev"
def FieldOrigin : String := "o"
def FieldComponents : String := "cmps"
def FieldEntityCategory : String := "ent_cat"
def FieldIcon : String := "ic"
def FieldPicture : String := "picture"
def FieldPlatform : String := "p"
def FieldDefaultEntityID : String := "def_ent_id"
def FieldUniqueID : String := "uniq_id"
def FieldPayloadOn : String := "pl_on"
def FieldPayloadOff : String := "pl_off"
def FieldOnCommandType : String := "on_cmd_type"
def FieldOptimistic : String := "opt"
def FieldAvailabilityTopic : String := "avty_t"
def FieldPayloadAvailable : String := "pl_avail"
def FieldPayloadNotAvailable : String := "pl_not_avail"
def FieldQoS : String := "qos"
def FieldQualityOfService : String := FieldQoS
def FieldRetain : String := "ret"
def FieldColorModeStateTopic : String := "clrm_stat_t"
def FieldColorModeCommandTopic : String := "clrm_cmd_t"
def FieldSupportedColorModes : String := "sup_clrm"
def FieldBrightnessCommandTopic : String := "bri_cmd_t"
def FieldBrightnessStateTopic : String := "bri_stat_t"
def FieldBrightnessScale : String := "bri_scl"
def FieldColorTemperatureCommandTopic : String := "clr_temp_cmd_t"
def FieldColorTemperatureStateTopic : String := "clr_temp_stat_t"
def FieldColorTemperatureInKelvin : String := "clr_temp_k"
def FieldMinKelvin : String := "min_k"
def FieldMaxKelvin : String := "max_k"
def FieldMinMireds : String := "min_mirs"
def FieldMaxMireds : String := "max_mirs"
def FieldHueSatCommandTopic : String := "hs_cmd_t"
def FieldHueSatStateTopic : String := "hs_stat_t"
def FieldXYCommandTopic : String := "xy_cmd_t"
def FieldXYStateTopic : String := "xy_stat_t"
def FieldRGBCommandTopic : String := "rgb_cmd_t"
def FieldRGBStateTopic : String := "rgb_stat_t"
def FieldRGBWCommandTopic : String := "rgbW_cmd_t"
def FieldRGBWStateTopic : String := "rgbW_stat_t"
def FieldRGBWWCommandTopic : String := "rgbWW_cmd_t"
def FieldRGBWWStateTopic : String := "rgbWW_stat_t"
def FieldWhiteCommandTopic : String := "whit_cmd_t"
def FieldWhiteScale : String := "whit_scl"
def FieldEffectCommandTopic : String := "fx_cmd_t"
def FieldEffectStateTopic : String := "fx_stat_t"
def FieldEffectList : String := "fx_list"
def FieldExpireMeasurementsAfter : String := "exp_after"
def FieldForceUpdate : String := "frc_upd"
def FieldAttributesTopic : String := "json_attr_t"
def FieldOptions : String := "opts"
def FieldSuggestedDisplayPrecision : String := "sug_dsp_prc"
def FieldStateClass : String := "stat_cla"
def FieldUnitOfMeasurement : String := "unit_of_meas"

/-! ## Sensor platform (platform sensor file)

Discovery cells are observed through their configured topics, so a
`mqtt.Value` pointer field is an `Option String`; scalar fields keep their Go
types with `Nat` for unsigned integers and durations in seconds. -/

/-- Sensor models the `Sensor` platform with the state type and attribute
type rendered as strings. -/
structure Sensor where
  ExpireMeasurementsAfter : Nat
  ForceUpdate : Bool
  Attributes : Option String
  EnumOptions : List String
  SuggestedDisplayPrecision : Nat
  StateClass : String
  State : Option String
  UnitOfMeasurement : String

/-- PlatformName of a Sensor is the string sensor. -/
def Sensor.PlatformName (_ : Sensor) : String := "sensor"

/-- Subscriptions of a Sensor is nil: the platform has no command cells. -/
def Sensor.Subscriptions (_ : Sensor) (_ : String) : List Subscription := []

/-- MarshalDiscoveryTo models `Sensor.MarshalDiscoveryTo`: the optional
fields, then the required state topic, joined in call order. -/
def Sensor.MarshalDiscoveryTo (s : Sensor) (pfx : String) : MarshalRes :=
  joinRes [
    MaybeMarshalStdComparable 0 Tok.nat FieldExpireMeasurementsAfter
      s.ExpireMeasurementsAfter,
    MaybeMarshalStdComparable false Tok.bool FieldForceUpdate s.ForceUpdate,
    MaybeMarshalValueTopic FieldAttributesTopic s.Attributes pfx,
    MaybeMarshalStdSlice FieldOptions s.EnumOptions,
    MaybeMarshalStdComparable 0 Tok.nat FieldSuggestedDisplayPrecision
      s.SuggestedDisplayPrecision,
    MaybeMarshalStdComparable "" Tok.str FieldStateClass s.StateClass,
    MarshalRequiredValueTopic "state" FieldStateTopic s.State pfx,
    MaybeMarshalStdComparable "" Tok.str FieldUnitOfMeasurement
      s.UnitOfMeasurement]

/-! ## Light platform (platform light file) -/

/-- DefaultLightOnCommandType is the string last. -/
def DefaultLightOnCommandType : String := "last"

/-- Light models the `Light` platform. Every `Value` and `RemoteValue`
pointer field is observed through its configured topic as an
`Option String`. -/
structure Light where
  OnCommandType : String
  Optimistic : Bool
  State : Option String
  Command : Option String
  CustomPowerStateValuesOn : String
  CustomPowerStateValuesOff : String
  ColorMode : Option String
  ColorModeCommand : Option String
  SupportedColorModes : List String
  Brightness : Option String
  BrightnessCommand : Option String
  BrightnessScale : Nat
  ColorTemperature : Option String
  ColorTemperatureCommand : Option String
  ColorTemperatureInKelvin : Bool
  MaxKelvin : Nat
  MinKelvin : Nat
  MaxMireds : Nat
  MinMireds : Nat
  HueSat : Option String
  HueSatCommand : Option String
  XY : Option String
  XYCommand : Option String
  RGB : Option String
  RGBCommand : Option String
  RGBW : Option String
  RGBWCommand : Option String
  RGBWW : Option String
  RGBWWCommand : Option String
  WhiteBrightnessCommand : Option String
  WhiteScale : Nat
  Effect : Option String
  EffectCommand : Option String
  PossibleEffects : List String

/-- PlatformName of a Light is the string light. -/
def Light.PlatformName (_ : Light) : String := "light"

/-- MarshalDiscoveryTo models `Light.MarshalDiscoveryTo` call for call. Two
call sites are transcribed exactly as the source has them: the hue sat pair
passes the fields `l.ColorTemperature` and `l.ColorTemperatureCommand`, and
the xy pair passes `FieldXYCommandTopic` as the state key and
`FieldXYStateTopic` as the command key. The pointer
`&l.SupportedColorModes` is never nil, so that field is always encoded. -/
def Light.MarshalDiscoveryTo (l : Light) (pfx : String) : MarshalRes :=
  joinRes [
    MarshalStdIfNot DefaultLightOnCommandType "" Tok.str FieldOnCommandType
      l.OnCommandType,
    MaybeMarshalStdComparable false Tok.bool FieldOptimistic l.Optimistic,
    MaybeMarshalValueTopic FieldStateTopic l.State pfx,
    MarshalRequiredRemoteValueTopic "command" FieldCommandTopic l.Command pfx,
    MaybeMarshalStdComparable "" Tok.str FieldPayloadOn
      l.CustomPowerStateValuesOn,
    MaybeMarshalStdComparable "" Tok.str FieldPayloadOff
      l.CustomPowerStateValuesOff,
    MaybeMarshalStateAndCommandTopics "color mode" FieldColorModeStateTopic
      l.ColorMode FieldColorModeCommandTopic l.ColorModeCommand pfx,
    ([Tok.str FieldSupportedColorModes, Tok.strList l.SupportedColorModes],
      []),
    MaybeMarshalStateAndCommandTopics "brightness" FieldBrightnessStateTopic
      l.Brightness FieldBrightnessCommandTopic l.BrightnessCommand pfx,
    MaybeMarshalStdComparable 0 Tok.nat FieldBrightnessScale
      l.BrightnessScale,
    MaybeMarshalStateAndCommandTopics "color temperature"
      FieldColorTemperatureStateTopic l.ColorTemperature
      FieldColorTemperatureCommandTopic l.ColorTemperatureCommand pfx,
    MaybeMarshalStdComparable false Tok.bool FieldColorTemperatureInKelvin
      l.ColorTemperatureInKelvin,
    MaybeMarshalStdComparable 0 Tok.nat FieldMaxKelvin l.MaxKelvin,
    MaybeMarshalStdComparable 0 Tok.nat FieldMinKelvin l.MinKelvin,
    MaybeMarshalStdComparable 0 Tok.nat FieldMaxMireds l.MaxMireds,
    MaybeMarshalStdComparable 0 Tok.nat FieldMinMireds l.MinMireds,
    MaybeMarshalStateAndCommandTopics "hue sat" FieldHueSatStateTopic
      l.ColorTemperature FieldHueSatCommandTopic l.ColorTemperatureCommand
      pfx,
    MaybeMarshalStateAndCommandTopics "xy" FieldXYCommandTopic l.XY
      FieldXYStateTopic l.XYCommand pfx,
    MaybeMarshalStateAndCommandTopics "rgb" FieldRGBStateTopic l.RGB
      FieldRGBCommandTopic l.RGBCommand pfx,
    MaybeMarshalStateAndCommandTopics "rgbw" FieldRGBWStateTopic l.RGBW
      FieldRGBWCommandTopic l.RGBWCommand pfx,
    MaybeMarshalStateAndCommandTopics "rgbww" FieldRGBWWStateTopic l.RGBWW
      FieldRGBWWCommandTopic l.RGBWWCommand pfx,
    MaybeMarshalRemoteValueTopic FieldWhiteCommandTopic
      l.WhiteBrightnessCommand pfx,
    MaybeMarshalStdComparable 0 Tok.nat FieldWhiteScale l.WhiteScale,
    MaybeMarshalStateAndCommandTopics "effect" FieldEffectStateTopic l.Effect
      FieldEffectCommandTopic l.EffectCommand pfx,
    MaybeMarshalStdSlice FieldEffectList l.PossibleEffects]

/-! ## Component composition (component file)

A `Component[TPlatform]` holds metadata, the availability cell, and the
platform value. The model carries the platform through its three observable
methods: the platform name, the discovery marshal as a function of the topic
prefix, and the subscriptions as a function of the topic prefix. -/

/-- SubAction records one transport call made by `Component.Subscribe` or
`Component.Unsubscribe`. -/
inductive SubAction where
  | subscribe (subs : List Subscription)
  | unsubscribe (topics : List String)
deriving DecidableEq

/-- ComponentSubErr models the errors of `Component.Subscribe` and
`Component.Unsubscribe`: the `ErrComponentAlreadySubscribed` sentinel or a
transport error passed through. -/
inductive ComponentSubErr where
  | alreadySubscribed
  | transport (msg : String)
deriving DecidableEq

/-- Component models the Go `Component` struct over an abstract platform.
The field `TopicPfx` is the Go field named for the topic prefix of the
component. -/
structure Component where
  PlatformName : String
  PlatformMarshalDiscoveryTo : String → MarshalRes
  PlatformSubscriptions : String → List Subscription
  TopicPfx : String
  Name : String
  EntityCategory : String
  Icon : String
  Picture : Option Tok
  Availability : Option String
  CustomAvailabilityValuesAvailable : String
  CustomAvailabilityValuesUnavailable : String
  DefaultEntityID : String
  UniqueID : String
  WOpts : WriteOptions
  subscribedTopics : List String

/-- Subscribe models `Component.Subscribe`: a non-empty subscribed topic
list fails with the already-subscribed sentinel and performs no transport
action; otherwise the platform subscriptions are recorded and one transport
subscribe call is made, whose result is passed through. The injected
subscriber is the function `sub` from the subscription list to an optional
transport error. -/
def Component.Subscribe (sub : List Subscription → Option String)
    (c : Component) : Component × Option ComponentSubErr × List SubAction :=
  if c.subscribedTopics.length ≠ 0 then
    (c, some ComponentSubErr.alreadySubscribed, [])
  else
    let subs := c.PlatformSubscriptions c.TopicPfx
    let c1 : Component := { c with subscribedTopics := subs.map Subscription.Topic }
    (c1, (sub subs).map ComponentSubErr.transport, [SubAction.subscribe subs])

/-- Unsubscribe models `Component.Unsubscribe`: with nothing subscribed it
is a no-op returning nil; otherwise it clears the tracked topics and makes
one transport unsubscribe call. -/
def Component.Unsubscribe (unsub : List String → Option String)
    (c : Component) : Component × Option ComponentSubErr × List SubAction :=
  if c.subscribedTopics.length = 0 then (c, none, [])
  else
    let topics := c.subscribedTopics
    let c1 : Component := { c with subscribedTopics := [] }
    (c1, (unsub topics).map ComponentSubErr.transport,
      [SubAction.unsubscribe topics])

/-- MarshalJSONTo models `Component.MarshalJSONTo`: the component object
with its metadata, the required availability topic, and the platform
discovery fields, all joined in call order. -/
def Component.MarshalJSONTo (c : Component) : MarshalRes :=
  let nameToken : Tok := if c.Name = "" then Tok.null else Tok.str c.Name
  joinRes [
    ([Tok.beginObj], []),
    MarshalStdComparable "" Tok.str "platform" FieldPlatform c.PlatformName,
    ([Tok.str "name", nameToken], []),
    MaybeMarshalStdComparable "" Tok.str FieldEntityCategory c.EntityCategory,
    MaybeMarshalStdComparable "" Tok.str FieldIcon c.Icon,
    MaybeMarshalStd FieldPicture c.Picture,
    MarshalRequiredValueTopic "availability" FieldAvailabilityTopic
      c.Availability c.TopicPfx,
    MaybeMarshalStdComparable "" Tok.str FieldPayloadAvailable
      c.CustomAvailabilityValuesAvailable,
    MaybeMarshalStdComparable "" Tok.str FieldPayloadNotAvailable
      c.CustomAvailabilityValuesUnavailable,
    MaybeMarshalStdComparable "" Tok.str FieldDefaultEntityID
      c.DefaultEntityID,
    MaybeMarshalStdComparable "" Tok.str FieldUniqueID c.UniqueID,
    MaybeMarshalStdComparable 0 Tok.nat FieldQualityOfService c.WOpts.QoS,
    MaybeMarshalStdComparable false Tok.bool FieldRetain c.WOpts.Retain,
    c.PlatformMarshalDiscoveryTo c.TopicPfx,
    ([Tok.endObj], [])]

/-! ## Device and discovery document assembly (device file) -/

/-- DeviceConnection models the Go struct of the same name. -/
structure DeviceConnection where
  Kind : String
  Value : String
deriving DecidableEq

/-- Device models the Go `Device` struct. Fields that are only ever encoded
opaquely into the document and never read by the algorithms under proof are
not carried. -/
structure Device where
  DiscoveryID : String
  Name : String
  Serial : String
  Manufacturer : String
  Model : String
  ModelID : String
  Identifiers : List String
  Connections : List DeviceConnection

/-- IDSep is the separator and replacement token of device IDs. -/
def IDSep : String := "__"

/-- IDSanitizerChar maps one character through the `IDSanitizer` replacer:
space, colon, dot, bang, question mark and the topic separator become IDSep,
everything else passes through. -/
def IDSanitizerChar (c : Char) : List Char :=
  if c = ' ' ∨ c = ':' ∨ c = '.' ∨ c = '!' ∨ c = '?' ∨ c = TopicSeparator then
    IDSep.data
  else [c]

/-- IDSanitize applies the `IDSanitizer` replacer to a string. -/
def IDSanitize (s : String) : String :=
  String.mk (s.data.foldr (fun c acc => IDSanitizerChar c ++ acc) [])

/-- idWriteSep models the `writeSep` closure of `Device.ID`: the separator
is appended only to a non-empty builder. -/
def idWriteSep (result : List Char) : List Char :=
  if result ≠ [] then result ++ IDSep.data else result

/-- idAppendIdentifiers models the identifier loop of `Device.ID`: each
identifier is sanitized and appended, with the separator appended after every
identifier except the one in the last position. -/
def idAppendIdentifiers : List String → List Char → List Char
  | [], acc => acc
  | [x], acc => acc ++ (IDSanitize x).data
  | x :: y :: rest, acc =>
      idAppendIdentifiers (y :: rest) (idWriteSep (acc ++ (IDSanitize x).data))

/-- idAppendField models one of the trailing field appends of `Device.ID`:
a non-empty field first writes the separator, then its sanitized value. -/
def idAppendField (f : String) (acc : List Char) : List Char :=
  if f ≠ "" then idWriteSep acc ++ (IDSanitize f).data else acc

/-- ID models `Device.ID`: the explicit discovery ID when set, otherwise the
concatenation of the sanitized identifiers, name, serial, manufacturer, model
and model ID. -/
def Device.ID (d : Device) : String :=
  if d.DiscoveryID ≠ "" then d.DiscoveryID
  else
    String.mk (idAppendField d.ModelID (idAppendField d.Model
      (idAppendField d.Manufacturer (idAppendField d.Serial
        (idAppendField d.Name (idAppendIdentifiers d.Identifiers []))))))

/-- ConfigureErr models the errors of `Device.Configure`: the
`ErrInvalidDevice` sentinel from validation, the wrap of the joined marshal
errors, or a transport error passed through from the final write. -/
inductive ConfigureErr where
  | invalidDevice
  | marshalFailed (errs : List DiscErr)
  | transport (msg : String)
deriving DecidableEq

/-- Valid models `Device.Valid`: the device fails validation exactly when
both the identifier list and the connection list are empty. -/
def Device.Valid (d : Device) : Option ConfigureErr :=
  if d.Identifiers = [] ∧ d.Connections = [] then
    some ConfigureErr.invalidDevice
  else none

/-- ConfigureWrite records the transport write of a discovery document. -/
structure ConfigureWrite where
  topic : String
  opts : WriteOptions
  doc : List Tok
deriving DecidableEq

/-- Configure models `Device.Configure`: validation first, returning the
invalid-device error with no write; then the document is assembled; a
non-empty joined error list is returned wrapped, with no write; otherwise the
document is written retained to the discovery topic and the transport result
is returned. The device and origin sections are standard-library encodings
whose content no claim inspects, carried as opaque json tokens; a nil origin
is replaced by the default origin before encoding, so the origin pointer
passed to `MarshalStd` is never nil. -/
def Device.Configure (wt : String → WriteOptions → List Tok → Option String)
    (d : Device) (discoveryPfx : String)
    (components : List (String × MarshalRes)) :
    Option ConfigureErr × List ConfigureWrite :=
  match d.Valid with
  | some e => (some e, [])
  | none =>
    let body := joinRes [
      ([Tok.beginObj], []),
      MarshalStd "device" FieldDevice (some (Tok.json "device")),
      MarshalStd "origin" FieldOrigin (some (Tok.json "origin")),
      ([Tok.str FieldComponents, Tok.beginObj], []),
      MaybeInlineMarshalStd components,
      ([Tok.endObj], []),
      ([Tok.endObj], [])]
    if body.2 ≠ [] then (some (ConfigureErr.marshalFailed body.2), [])
    else
      let topic := discoveryPfx ++ "/device/" ++ d.ID ++ "/config"
      ((wt topic ⟨0, true⟩ body.1).map ConfigureErr.transport,
        [⟨topic, ⟨0, true⟩, body.1⟩])

/-! ## Concrete instances used by individual theorems -/

/-- oneWatcherCell is a remote value cell with exactly one registered
watcher. -/
def oneWatcherCell : RemoteValue Nat Unit :=
  ⟨"t", none, ⟨0, false, false, 0⟩, [()], 0, false⟩

/-- emptyWatcherCell is a remote value cell with no registered watchers. -/
def emptyWatcherCell : RemoteValue Nat Unit :=
  ⟨"t", none, ⟨0, false, false, 0⟩, [], 0, false⟩

/-- lightPairBugInput is a Light whose hue sat pair and xy pair are both
fully configured (state and command cells present), whose required command
cell is present, and whose remaining fields are unset. -/
def lightPairBugInput : Light :=
  ⟨"", false, none, some "cmd", "", "", none, none, [], none, none, 0,
    none, none, false, 0, 0, 0, 0, some "hss", some "hsc", some "xys",
    some "xyc", none, none, none, none, none, none, none, 0, none, none, []⟩

/-! ## Theorems -/

/-- C1 (code_bug): the claim says an out-of-range Unwatch id is a logged
no-op that never panics. On a cell with exactly one registered watcher,
`Unwatch(1)` passes the invalid-id guard (which requires `id > len`) and
evaluates the slice `v.watchers[2:]` on a one-element slice, which panics at
run time; the model therefore returns `none` instead of the unchanged
state. -/
theorem unwatch_out_of_range_panics :
    RemoteValue.Unwatch oneWatcherCell 1 = none := by
  rfl

/-- C2 (code_bug): the claim says the transient observer of Await is removed
on every exit path. On a cell whose watcher list is empty before Await, the
transient watcher receives id 0, and the deferred `Unwatch(0)` is rejected by
the `id < 1` guard as invalid, so the watcher list after Await still holds
the transient observer instead of being empty again. -/
theorem await_transient_watcher_not_removed :
    (RemoteValue.AwaitWatcherCleanup emptyWatcherCell ()).map
        (fun s => s.watchers) = some [()] ∧
      some [()] ≠ some ([] : List Unit) := by
  exact ⟨rfl, by decide⟩

/-- C5 (code_bug): the claim says every paired state and command cell of the
Light platform, hue sat and xy included, emits both fully qualified topics
under the respective keys of that pair when both cells are configured. On a
Light whose HueSat, HueSatCommand, XY and XYCommand cells are all configured,
the assembly emits no hue sat key at all and contributes no error, because
the hue sat call site passes the ColorTemperature cells, and it emits the xy
state topic under the xy command key and the xy command topic under the xy
state key, because the xy call site swaps the two key constants. -/
theorem light_hue_sat_xy_pair_bug :
    Light.MarshalDiscoveryTo lightPairBugInput "" =
      ([Tok.str "cmd_t", Tok.str "cmd", Tok.str "sup_clrm", Tok.strList [],
        Tok.str FieldXYCommandTopic, Tok.str "xys",
        Tok.str FieldXYStateTopic, Tok.str "xyc"], []) ∧
    lightPairBugInput.HueSat = some "hss" ∧
    lightPairBugInput.HueSatCommand = some "hsc" ∧
    Tok.str FieldHueSatStateTopic ∉
      (Light.MarshalDiscoveryTo lightPairBugInput "").1 ∧
    Tok.str FieldHueSatCommandTopic ∉
      (Light.MarshalDiscoveryTo lightPairBugInput "").1 := by
  refine ⟨by decide, rfl, rfl, by decide, by decide⟩

/-- zeroSubsSensor is a sensor whose platform contributes no
subscriptions (the source `Sensor.Subscriptions` returns nil). -/
def zeroSubsSensor : Sensor := ⟨0, false, none, [], 0, "", some "st", ""⟩

/-- zeroSubsComponent is a fresh component over `zeroSubsSensor`. -/
def zeroSubsComponent : Component :=
  ⟨zeroSubsSensor.PlatformName, zeroSubsSensor.MarshalDiscoveryTo,
    zeroSubsSensor.Subscriptions, "home/x", "", "", "", none, some "avty",
    "", "", "", "u1", ⟨0, false⟩, []⟩

/-- oneSubComponent is a fresh component whose platform contributes one
subscription. -/
def oneSubComponent : Component :=
  ⟨"light", fun _ => ([], []),
    fun pfx => [⟨JoinTopic [pfx, "cmd"], ⟨0, false, false, 0⟩⟩], "home/y",
    "", "", "", none, some "avty", "", "", "", "u2", ⟨0, false⟩, []⟩

/-- C9 counterexample: on a component whose platform contributes zero
subscriptions, the first Subscribe records an empty topic list, so the
already-subscribed guard `len(subscribedTopics) != 0` never trips: a second
Subscribe without an intervening Unsubscribe returns nil instead of the
already-subscribed error and performs a transport subscribe action. -/
theorem subscribe_twice_zero_subscriptions :
    (Component.Subscribe (fun _ => none)
        (Component.Subscribe (fun _ => none) zeroSubsComponent).1).2.1 =
      none ∧
    (Component.Subscribe (fun _ => none)
        (Component.Subscribe (fun _ => none) zeroSubsComponent).1).2.2 =
      [SubAction.subscribe []] := by
  exact ⟨rfl, rfl⟩

/-- C9 (corrected): for every component whose platform contributes at least
one subscription for its topic prefix, a second Subscribe without an
intervening Unsubscribe fails with the already-subscribed error and performs
no transport action; and for every component with nothing subscribed,
Unsubscribe succeeds as a no-op with no transport action. For a platform
contributing zero subscriptions the guard does not engage. -/
theorem component_subscribe_guard
    (sub1 sub2 : List Subscription → Option String)
    (unsub : List String → Option String) (c : Component)
    (hfresh : c.subscribedTopics = [])
    (hsubs : c.PlatformSubscriptions c.TopicPfx ≠ []) :
    Component.Subscribe sub2 (Component.Subscribe sub1 c).1 =
      ((Component.Subscribe sub1 c).1,
        some ComponentSubErr.alreadySubscribed, []) ∧
    ∀ c0 : Component, c0.subscribedTopics = [] →
      Component.Unsubscribe unsub c0 = (c0, none, []) := by
  constructor
  · simp [Component.Subscribe, hfresh, hsubs]
  · intro c0 h0
    simp [Component.Unsubscribe, h0]

/-- Witness for component_subscribe_guard at a concrete component with one
subscription. -/
theorem component_subscribe_guard_witness :
    Component.Subscribe (fun _ => none)
        (Component.Subscribe (fun _ => none) oneSubComponent).1 =
      ((Component.Subscribe (fun _ => none) oneSubComponent).1,
        some ComponentSubErr.alreadySubscribed, []) ∧
    Component.Unsubscribe (fun _ => none) oneSubComponent =
      (oneSubComponent, none, []) := by
  refine ⟨(component_subscribe_guard (fun _ => none) (fun _ => none)
    (fun _ => none) oneSubComponent rfl (by decide)).1, ?_⟩
  exact (component_subscribe_guard (fun _ => none) (fun _ => none)
    (fun _ => none) oneSubComponent rfl (by decide)).2 oneSubComponent rfl

/-- C3 (confirmed): a device with no identifiers and no connections makes
Configure return the invalid-device error with no transport write, whatever
the components; a device with at least one identifier or at least one
connection passes validation. -/
theorem device_configure_validation
    (wt : String → WriteOptions → List Tok → Option String) (d : Device)
    (discoveryPfx : String) (components : List (String × MarshalRes)) :
    (d.Identifiers = [] ∧ d.Connections = [] →
      Device.Configure wt d discoveryPfx components =
        (some ConfigureErr.invalidDevice, [])) ∧
    (d.Identifiers ≠ [] ∨ d.Connections ≠ [] → d.Valid = none) := by
  constructor
  · intro h
    simp [Device.Configure, Device.Valid, h.1, h.2]
  · intro h
    rcases h with h | h <;> simp [Device.Valid, h]

/-- Witness for device_configure_validation: an empty device is rejected
without a write, and a device with one identifier passes validation. -/
theorem device_configure_validation_witness :
    Device.Configure (fun _ _ _ => none)
        (⟨"", "", "", "", "", "", [], []⟩ : Device) "homeassistant"
        [("one", ([], [DiscErr.topicRequired "availability"]))] =
      (some ConfigureErr.invalidDevice, []) ∧
    Device.Valid (⟨"", "", "", "", "", "", ["serial1"], []⟩ : Device) =
      none := by
  constructor
  · exact (device_configure_validation (fun _ _ _ => none) _ _ _).1
      ⟨rfl, rfl⟩
  · exact (device_configure_validation (fun _ _ _ => none)
      (⟨"", "", "", "", "", "", ["serial1"], []⟩ : Device) "homeassistant"
      []).2 (Or.inl (by decide))

/-- joinRes_snd computes the error component of a joined sequence of
marshal results. -/
theorem joinRes_snd (rs : List MarshalRes) :
    (joinRes rs).2 = (rs.map Prod.snd).flatten := by
  induction rs with
  | nil => rfl
  | cons r rest ih => simp [joinRes, List.foldr] at ih ⊢; rw [ih]

/-- C4 (confirmed): when a valid device is assembled over components among
which two entries contribute validation errors e1 and e2, Configure returns
one combined marshal failure whose error list contains e1 and also contains
e2, and performs no transport write. -/
theorem configure_aggregates_errors
    (wt : String → WriteOptions → List Tok → Option String) (d : Device)
    (discoveryPfx : String) (components : List (String × MarshalRes))
    (hvalid : d.Valid = none) (k1 k2 : String) (r1 r2 : MarshalRes)
    (e1 e2 : DiscErr) (h1 : (k1, r1) ∈ components) (he1 : e1 ∈ r1.2)
    (h2 : (k2, r2) ∈ components) (he2 : e2 ∈ r2.2) :
    ∃ errs : List DiscErr,
      Device.Configure wt d discoveryPfx components =
        (some (ConfigureErr.marshalFailed errs), []) ∧
      e1 ∈ errs ∧ e2 ∈ errs := by
  have hmem : ∀ (k : String) (r : MarshalRes) (e : DiscErr),
      (k, r) ∈ components → e ∈ r.2 →
      e ∈ (MaybeInlineMarshalStd components).2 := by
    intro k r e hk he
    rw [MaybeInlineMarshalStd, joinRes_snd, List.mem_flatten]
    exact ⟨r.2, by
      simp only [List.map_map, List.mem_map]
      exact ⟨(k, r), hk, rfl⟩, he⟩
  have hb1 := hmem k1 r1 e1 h1 he1
  have hb2 := hmem k2 r2 e2 h2 he2
  refine ⟨(MaybeInlineMarshalStd components).2, ?_, hb1, hb2⟩
  have hne : (MaybeInlineMarshalStd components).2 ≠ [] :=
    List.ne_nil_of_mem hb1
  simp only [Device.Configure, hvalid, joinRes, List.foldr, MarshalStd,
    List.append_nil, List.nil_append]
  rw [if_pos hne]

/-- compNoAvail is a component whose availability cell is nil, so its
marshal contributes the required-availability-topic error. -/
def compNoAvail : Component :=
  ⟨"light", fun _ => ([], []), fun _ => [], "home/a", "", "", "", none,
    none, "", "", "", "ua", ⟨0, false⟩, []⟩

/-- compNoState is a sensor component whose state cell is nil, so its
marshal contributes the required-state-topic error. -/
def compNoState : Component :=
  ⟨"sensor",
    Sensor.MarshalDiscoveryTo ⟨0, false, none, [], 0, "", none, ""⟩,
    fun _ => [], "home/b", "", "", "", none, some "avty", "", "", "", "ub",
    ⟨0, false⟩, []⟩

/-- Witness for configure_aggregates_errors: a valid device assembled over
one component missing its required availability topic and another missing
its required state topic yields one combined error containing both
violations. -/
theorem configure_aggregates_errors_witness :
    ∃ errs : List DiscErr,
      Device.Configure (fun _ _ _ => none)
          (⟨"", "", "", "", "", "", ["id1"], []⟩ : Device) "homeassistant"
          [("one", Component.MarshalJSONTo compNoAvail),
            ("two", Component.MarshalJSONTo compNoState)] =
        (some (ConfigureErr.marshalFailed errs), []) ∧
      DiscErr.topicRequired "availability" ∈ errs ∧
      DiscErr.topicRequired "state" ∈ errs := by
  exact configure_aggregates_errors (fun _ _ _ => none) _ "homeassistant" _
    (by decide) "one" "two" (Component.MarshalJSONTo compNoAvail)
    (Component.MarshalJSONTo compNoState)
    (DiscErr.topicRequired "availability") (DiscErr.topicRequired "state")
    (by simp) (by decide) (by simp) (by decide)

/-- C7 (confirmed): on an exact topic match whose deserialization fails, the
stored value and the ever-received flag keep their prior values (so Get is
unchanged), the watcher list is unchanged and no watcher is invoked; on a
topic that does not match exactly, the cell is completely unchanged and no
watcher is invoked. The effective unmarshaler is the configured one, or the
JSON unmarshaler installed when the configured one is nil. -/
theorem remoteValue_bad_payload_preserves_state {T W : Type}
    (jsonDec : Payload → Except String T) (s : RemoteValue T W)
    (topic : String) (payload : Payload) :
    (∀ e : String, s.topic = topic →
      (s.unmarshaler.getD (JsonValueUnmarshaler jsonDec)) payload =
          Except.error e →
      (s.ServeMQTT jsonDec topic payload).1.Get = s.Get ∧
      (s.ServeMQTT jsonDec topic payload).1.watchers = s.watchers ∧
      (s.ServeMQTT jsonDec topic payload).2 = []) ∧
    (s.topic ≠ topic → s.ServeMQTT jsonDec topic payload = (s, [])) := by
  constructor
  · intro e hm herr
    simp [RemoteValue.ServeMQTT, hm, herr, RemoteValue.Get]
  · intro hne
    simp [RemoteValue.ServeMQTT, hne]

/-- Witness for remoteValue_bad_payload_preserves_state at a cell whose
unmarshaler rejects every payload, on a matching and on a mismatched
topic. -/
theorem remoteValue_bad_payload_preserves_state_witness :
    ((RemoteValue.ServeMQTT (fun _ => Except.error "json")
        (⟨"t", some (fun _ => Except.error "bad"), ⟨0, false, false, 0⟩,
          [()], 7, true⟩ : RemoteValue Nat Unit) "t" [1]).1.Get =
      (7, true)) ∧
    (RemoteValue.ServeMQTT (fun _ => Except.error "json")
        (⟨"t", some (fun _ => Except.error "bad"), ⟨0, false, false, 0⟩,
          [()], 7, true⟩ : RemoteValue Nat Unit) "other" [1]) =
      (⟨"t", some (fun _ => Except.error "bad"), ⟨0, false, false, 0⟩,
        [()], 7, true⟩, []) := by
  constructor
  · exact ((remoteValue_bad_payload_preserves_state
      (fun _ => Except.error "json")
      (⟨"t", some (fun _ => Except.error "bad"), ⟨0, false, false, 0⟩,
        [()], 7, true⟩ : RemoteValue Nat Unit) "t" [1]).1 "bad" rfl rfl).1
  · exact (remoteValue_bad_payload_preserves_state
      (fun _ => Except.error "json")
      (⟨"t", some (fun _ => Except.error "bad"), ⟨0, false, false, 0⟩,
        [()], 7, true⟩ : RemoteValue Nat Unit) "other" [1]).2 (by decide)

/-- C8 (confirmed): a Write whose marshal succeeds stores the value and sets
the ever-written flag, so a following Get returns the written value and true,
for every transport result including failing ones; a fresh cell reports
false whatever the default value of its type; and a Write that fails in the
no-marshaler or marshal-error path leaves the cell untouched, so a cell with
no successful Write still reports false. -/
theorem value_write_get_spec {T : Type} :
    (∀ (wt : String → WriteOptions → Payload → Option String) (s : Value T)
        (pfx : String) (nv : T) (m : T → Except String Payload)
        (data : Payload), s.marshaler = some m → m nv = Except.ok data →
      (Value.Write wt s pfx nv).1.Get = (nv, true)) ∧
    (∀ (topic : String) (mo : Option (T → Except String Payload)) (d : T),
      (NewValue topic mo d).Get = (d, false)) ∧
    (∀ (wt : String → WriteOptions → Payload → Option String) (s : Value T)
        (pfx : String) (nv : T),
      (s.marshaler = none → (Value.Write wt s pfx nv).1 = s) ∧
      (∀ (m : T → Except String Payload) (e : String),
        s.marshaler = some m → m nv = Except.error e →
        (Value.Write wt s pfx nv).1 = s)) := by
  refine ⟨?_, ?_, ?_⟩
  · intro wt s pfx nv m data hm hok
    simp [Value.Write, hm, hok, Value.Get]
  · intro topic mo d
    simp [NewValue, NewValueWithOptions, Value.Get]
  · intro wt s pfx nv
    constructor
    · intro hm
      simp [Value.Write, hm]
    · intro m e hm herr
      simp [Value.Write, hm, herr]

/-- Witness for value_write_get_spec: a write through a failing transport
still advances the stored value, and a fresh cell reports false. -/
theorem value_write_get_spec_witness :
    (Value.Write (fun _ _ _ => some "transport down")
        (⟨"st", some (fun n => Except.ok [n]), ⟨0, false⟩, 0, false⟩ :
          Value Nat) "home" 5).1.Get = (5, true) ∧
    (NewValue "st" (none : Option (Nat → Except String Payload)) 0).Get =
      (0, false) := by
  constructor
  · exact (value_write_get_spec (T := Nat)).1
      (fun _ _ _ => some "transport down")
      (⟨"st", some (fun n => Except.ok [n]), ⟨0, false⟩, 0, false⟩ :
        Value Nat) "home" 5 (fun n => Except.ok [n]) [5] rfl rfl
  · exact (value_write_get_spec (T := Nat)).2.1 "st" none 0

/-- C10 (confirmed): delivering on the exact topic of a cell constructed
with a nil unmarshaler installs the JSON unmarshaler for the cell type and
uses it for this and later deliveries: a payload the JSON decoder accepts
updates the stored value, sets the ever-received flag and fires every
watcher with the decoded value in order, and a payload it rejects is an
ordinary decoding error that changes no stored state and fires no
watcher. -/
theorem remoteValue_installs_json_unmarshaler {T W : Type}
    (jsonDec : Payload → Except String T) (s : RemoteValue T W)
    (topic : String) (payload : Payload) (hnil : s.unmarshaler = none)
    (hmatch : s.topic = topic) :
    (s.ServeMQTT jsonDec topic payload).1.unmarshaler =
      some (JsonValueUnmarshaler jsonDec) ∧
    (∀ v : T, jsonDec payload = Except.ok v →
      (s.ServeMQTT jsonDec topic payload).1.v = v ∧
      (s.ServeMQTT jsonDec topic payload).1.initialized = true ∧
      (s.ServeMQTT jsonDec topic payload).2 =
        s.watchers.map (fun w => (w, v))) ∧
    (∀ e : String, jsonDec payload = Except.error e →
      (s.ServeMQTT jsonDec topic payload).1.v = s.v ∧
      (s.ServeMQTT jsonDec topic payload).1.initialized = s.initialized ∧
      (s.ServeMQTT jsonDec topic payload).2 = []) := by
  refine ⟨?_, ?_, ?_⟩
  · simp only [RemoteValue.ServeMQTT, hmatch, hnil]
    simp [JsonValueUnmarshaler]
    split <;> rfl
  · intro v hok
    simp [RemoteValue.ServeMQTT, hmatch, hnil, JsonValueUnmarshaler, hok]
  · intro e herr
    simp [RemoteValue.ServeMQTT, hmatch, hnil, JsonValueUnmarshaler, herr]

/-- Witness for remoteValue_installs_json_unmarshaler: a cell with a nil
unmarshaler decodes a one-element payload with the ambient JSON decoder,
updating the state and firing its watcher. -/
theorem remoteValue_installs_json_unmarshaler_witness :
    (RemoteValue.ServeMQTT
        (fun p => if p = [42] then Except.ok 42 else Except.error "syntax")
        (⟨"t", none, ⟨0, false, false, 0⟩, [()], 0, false⟩ :
          RemoteValue Nat Unit) "t" [42]).1.v = 42 ∧
    (RemoteValue.ServeMQTT
        (fun p => if p = [42] then Except.ok 42 else Except.error "syntax")
        (⟨"t", none, ⟨0, false, false, 0⟩, [()], 0, false⟩ :
          RemoteValue Nat Unit) "t" [42]).2 = [((), 42)] := by
  have h := remoteValue_installs_json_unmarshaler
    (fun p => if p = [42] then Except.ok 42 else Except.error "syntax")
    (⟨"t", none, ⟨0, false, false, 0⟩, [()], 0, false⟩ :
      RemoteValue Nat Unit) "t" [42] rfl rfl
  exact ⟨(h.2.1 42 rfl).1, (h.2.1 42 rfl).2.2⟩

/-- C6 counterexample: joining a list whose last segment is discarded
leaves a trailing separator, so joining the joined output again strips it
and yields a different string. -/
theorem joinTopic_not_idempotent :
    JoinTopic [JoinTopic ["a", ""]] ≠ JoinTopic ["a", ""] := by
  decide

/-- headNotSep holds when the first character, if any, is not the
separator. -/
def headNotSep (l : List Char) : Prop :=
  ∀ c, l.head? = some c → isSep c = false

/-- lastNotSep holds when the last character, if any, is not the
separator. -/
def lastNotSep (l : List Char) : Prop :=
  ∀ c, l.getLast? = some c → isSep c = false

/-- solidTopic holds for non-empty character lists that neither start nor
end with the separator. -/
def solidTopic (l : List Char) : Prop :=
  l ≠ [] ∧ headNotSep l ∧ lastNotSep l

/-- head_dropWhile_isSep: after dropping leading separators the head, if
any, is not a separator. -/
theorem head_dropWhile_isSep (l : List Char) :
    ∀ c, (l.dropWhile isSep).head? = some c → isSep c = false := by
  induction l with
  | nil => intro c hc; simp [List.dropWhile] at hc
  | cons a t ih =>
    intro c hc
    rw [List.dropWhile_cons] at hc
    by_cases ha : isSep a
    · rw [if_pos ha] at hc
      exact ih c hc
    · rw [if_neg ha] at hc
      have hac : a = c := by simpa using hc
      subst hac
      simpa using ha

/-- dropWhile_eq_self_of_headNotSep: a list whose head is not a separator
is unchanged by dropping leading separators. -/
theorem dropWhile_eq_self_of_headNotSep (l : List Char) (h : headNotSep l) :
    l.dropWhile isSep = l := by
  cases l with
  | nil => rfl
  | cons a t =>
    rw [List.dropWhile_cons, if_neg]
    have := h a rfl
    simp [this]

/-- rdropWhile_eq_self_of_lastNotSep: a list whose last character is not a
separator is unchanged by dropping trailing separators. -/
theorem rdropWhile_eq_self_of_lastNotSep (l : List Char)
    (h : lastNotSep l) : l.rdropWhile isSep = l := by
  apply List.rdropWhile_eq_self_iff.mpr
  intro hl
  have := h (l.getLast hl) (List.getLast?_eq_getLast l hl)
  simp [this]

/-- trimTopicL_eq_self_of_solid: trimming does nothing on a solid topic. -/
theorem trimTopicL_eq_self_of_solid (l : List Char) (h : solidTopic l) :
    TrimTopicL l = l := by
  rw [TrimTopicL, dropWhile_eq_self_of_headNotSep l h.2.1,
    rdropWhile_eq_self_of_lastNotSep l h.2.2]

/-- trimTopicL_solid: a non-empty trim result is a solid topic. -/
theorem trimTopicL_solid (l : List Char) (h : TrimTopicL l ≠ []) :
    solidTopic (TrimTopicL l) := by
  refine ⟨h, ?_, ?_⟩
  · intro c hc
    obtain ⟨u, hu⟩ :=
      List.rdropWhile_prefix isSep (l.dropWhile isSep)
    have hd : (l.dropWhile isSep).head? = some c := by
      rw [← hu]
      exact (List.head?_append_of_ne_nil (TrimTopicL l) h).trans hc
    exact head_dropWhile_isSep l c hd
  · intro c hc
    have hlast := List.rdropWhile_last_not isSep (l.dropWhile isSep) h
    obtain ⟨hne, hcc⟩ := List.mem_getLast?_eq_getLast hc
    rw [hcc]
    simpa using hlast

/-- solid_append_sep: appending a separator and then a solid topic to a
solid topic yields a solid topic. -/
theorem solid_append_sep (a b : List Char) (ha : solidTopic a)
    (hb : solidTopic b) : solidTopic ((a ++ [TopicSeparator]) ++ b) := by
  refine ⟨by simp [ha.1], ?_, ?_⟩
  · intro c hc
    rw [List.head?_append_of_ne_nil _ (by simp [ha.1]),
      List.head?_append_of_ne_nil _ ha.1] at hc
    exact ha.2.1 c hc
  · intro c hc
    rw [List.getLast?_append_of_ne_nil _ hb.1] at hc
    exact hb.2.2 c hc

/-- skipPart_iff characterizes the skipped parts. -/
theorem skipPart_iff (p : List Char) :
    skipPart p = true ↔ p = [] ∨ p = [TopicSeparator] := by
  simp [skipPart]

/-- skipPart_eq_false_of_trim_ne_nil: a part whose trim is non-empty is not
skipped. -/
theorem skipPart_eq_false_of_trim_ne_nil (p : List Char)
    (h : TrimTopicL p ≠ []) : skipPart p = false := by
  cases hs : skipPart p with
  | false => rfl
  | true =>
    exfalso
    apply h
    rcases (skipPart_iff p).mp hs with h1 | h1 <;> rw [h1] <;> decide

/-- skipPart_eq_false_of_solid: a solid topic is not skipped. -/
theorem skipPart_eq_false_of_solid (l : List Char) (h : solidTopic l) :
    skipPart l = false := by
  cases hs : skipPart l with
  | false => rfl
  | true =>
    exfalso
    rcases (skipPart_iff l).mp hs with h1 | h1
    · exact h.1 h1
    · have hd := h.2.1 TopicSeparator (by rw [h1]; rfl)
      simp [isSep] at hd

/-- joinTopicL_solid: the join of a non-empty list of parts each of which
trims to a non-empty string is a solid topic. -/
theorem joinTopicL_solid (parts : List (List Char))
    (hall : ∀ p ∈ parts, TrimTopicL p ≠ []) (hne : parts ≠ []) :
    solidTopic (JoinTopicL parts) := by
  induction parts with
  | nil => exact absurd rfl hne
  | cons p rest ih =>
    have hp := hall p (by simp)
    have hskip := skipPart_eq_false_of_trim_ne_nil p hp
    cases rest with
    | nil =>
      simp only [JoinTopicL, hskip, Bool.false_eq_true, if_false]
      exact trimTopicL_solid p hp
    | cons q rest2 =>
      have hrec := ih (fun x hx => hall x (by simp [hx])) (by simp)
      simp only [JoinTopicL, hskip, Bool.false_eq_true, if_false]
      exact solid_append_sep _ _ (trimTopicL_solid p hp) hrec

/-- C6 (corrected): joining is idempotent for lists of segments each of
which still contains a non-separator character after trimming, so that no
kept segment trims away entirely and in particular the last segment is not
discarded: joining the single string produced by joining such a list
reproduces that string. -/
theorem joinTopic_idempotent_of_solid (parts : List String)
    (h : ∀ p ∈ parts, TrimTopic p ≠ "") :
    JoinTopic [JoinTopic parts] = JoinTopic parts := by
  cases hp : parts.map String.data with
  | nil =>
    have : parts = [] := List.map_eq_nil_iff.mp hp
    subst this
    rfl
  | cons q qs =>
    have hne : parts.map String.data ≠ [] := by rw [hp]; simp
    have hall : ∀ q ∈ parts.map String.data, TrimTopicL q ≠ [] := by
      intro x hx hnil
      obtain ⟨p, hpmem, hpd⟩ := List.mem_map.mp hx
      apply h p hpmem
      show String.mk (TrimTopicL p.data) = ""
      rw [hpd, hnil]
    have hsolid := joinTopicL_solid (parts.map String.data) hall hne
    show String.mk
        (JoinTopicL ([String.mk (JoinTopicL (parts.map String.data))].map
          String.data)) =
      String.mk (JoinTopicL (parts.map String.data))
    have hmap : ([String.mk (JoinTopicL (parts.map String.data))].map
        String.data) = [JoinTopicL (parts.map String.data)] := rfl
    rw [hmap]
    show String.mk
        (if skipPart (JoinTopicL (parts.map String.data)) then []
          else TrimTopicL (JoinTopicL (parts.map String.data))) = _
    rw [skipPart_eq_false_of_solid _ hsolid]
    simp only [Bool.false_eq_true, if_false]
    rw [trimTopicL_eq_self_of_solid _ hsolid]

/-- Witness for joinTopic_idempotent_of_solid at a concrete segment list
containing a trailing separator inside a segment. -/
theorem joinTopic_idempotent_of_solid_witness :
    (∀ p ∈ ["a", "b/"], TrimTopic p ≠ "") ∧
      JoinTopic [JoinTopic ["a", "b/"]] = JoinTopic ["a", "b/"] :=
  ⟨by decide, joinTopic_idempotent_of_solid ["a", "b/"] (by decide)⟩

